import Mathlib

/-!
Verification development for the face-image preprocessing pipeline:
path-key resolution and annotation aggregation (dro/utils/vggface.py)
and the face-cropping batch pipeline (scripts/detect_faces.py).

Python exceptions are modelled by an explicit error type and fallible
steps return Except.  The Python regular expressions used by the code
are modelled by a small backtracking matcher (longest-first for greedy
stars, anchored at the start and unanchored at the end, exactly like
re.match), specialised to the pattern constructors the source uses:
a literal character, the wildcard, the greedy wildcard star, and a
greedy nonempty digit run.
-/

/-- Python exception kinds that the modelled code can raise. -/
inductive PyError where
  | valueError : PyError
  | indexError : PyError
  | attributeError : PyError
  | nameError : PyError
  | ioError : PyError
  | assertionError : PyError
deriving DecidableEq

/-- Elements of the regular expressions appearing in the source:
a greedy wildcard star, a single-character wildcard, a literal
character, and a greedy nonempty digit run. -/
inductive RE where
  | dotStar : RE
  | anyCh : RE
  | ch : Char → RE
  | digitPlus : RE
deriving DecidableEq

/-- Remainders of a string after a greedy wildcard star, in the order a
backtracking matcher tries them: maximal consumption first, so the
shortest remainder comes first and the whole string last.  Python's dot
does not match a newline (re.DOTALL is not set anywhere in the source),
so the star consumes at most the newline-free prefix and a remainder
beginning with a newline ends the candidate list. -/
def greedySuffixes : List Char → List (List Char)
  | [] => [[]]
  | c :: s => if c = '\n' then [c :: s] else greedySuffixes s ++ [c :: s]

/-- Remainders after consuming zero or more further digits greedily. -/
def digitStarSuffixes : List Char → List (List Char)
  | [] => [[]]
  | c :: s => if c.isDigit then digitStarSuffixes s ++ [c :: s] else [c :: s]

/-- Remainders after a greedy nonempty digit run: at least one digit is
consumed, and longer runs are tried first.  Char.isDigit covers the
ASCII digits; Python's digit class also accepts other Unicode decimal
digits, which the ASCII annotation filenames considered here never
contain. -/
def digitPlusSuffixes : List Char → List (List Char)
  | [] => []
  | c :: s => if c.isDigit then digitStarSuffixes s else []

/-- Suffixes of a ++ b that begin strictly inside a, shortest first;
together with greedySuffixes b these enumerate greedySuffixes (a ++ b). -/
def tailsFrom : List Char → List Char → List (List Char)
  | [], _ => []
  | c :: a, b => tailsFrom a b ++ [c :: (a ++ b)]

/-- Character list of the literal suffix .jpg. -/
def jpgL : List Char := ['.', 'j', 'p', 'g']

/-- Number of literal occurrences of a character among the elements of a
pattern; each such literal must consume a distinct copy of the character
from the subject string. -/
def litCount (c : Char) : List RE → Nat
  | [] => 0
  | RE.ch a :: ps => (if a = c then 1 else 0) + litCount c ps
  | RE.anyCh :: ps => litCount c ps
  | RE.dotStar :: ps => litCount c ps
  | RE.digitPlus :: ps => litCount c ps

/-- First non-none value of a function over a list, in list order; this
is the candidate-selection order of the backtracking matcher. -/
def firstSome? (f : α → Option β) : List α → Option β
  | [] => none
  | a :: l =>
    match f a with
    | some b => some b
    | none => firstSome? f l

/-- Backtracking matcher in continuation style.  reMatch ps s k matches
the pattern elements ps against a prefix of s and feeds the unconsumed
remainder to the continuation k; candidates produced by greedy elements
are tried longest-consumption first, and the first overall success wins,
exactly like the backtracking search of Python's re engine.  The
wildcard, like Python's dot without re.DOTALL, does not match a
newline. -/
def reMatch (ps : List RE) (s : List Char) (k : List Char → Option β) : Option β :=
  match ps, s with
  | [], s => k s
  | .ch _ :: _, [] => none
  | .ch c :: ps, a :: s => if a = c then reMatch ps s k else none
  | .anyCh :: _, [] => none
  | .anyCh :: ps, a :: s => if a = '\n' then none else reMatch ps s k
  | .dotStar :: ps, s => firstSome? (fun t => reMatch ps t k) (greedySuffixes s)
  | .digitPlus :: ps, s => firstSome? (fun t => reMatch ps t k) (digitPlusSuffixes s)

/-- Match a pattern of the shape pre(grp)post against a prefix of s,
anchored at the start of s, and return the substring captured by the
single group, i.e. re.match followed by group(1). -/
def reGroupMatch (pre grp post : List RE) (s : List Char) : Option (List Char) :=
  reMatch pre s (fun s1 =>
    reMatch grp s1 (fun s2 =>
      reMatch post s2 (fun _ => some (s1.take (s1.length - s2.length)))))

/-- Part of the pattern of get_key_from_fp before the group:
the source pattern is dot-star, slash, then the group. -/
def getKeyPre : List RE := [.dotStar, .ch '/']

/-- Group of the pattern of get_key_from_fp: dot-star, slash, dot-star,
an unescaped dot (a wildcard, as written in the source), then the three
literal characters j p g. -/
def getKeyGrp : List RE := [.dotStar, .ch '/', .dotStar, .anyCh, .ch 'j', .ch 'p', .ch 'g']

/-- Part of the pattern of image_uid_from_fp before the group. -/
def uidPre : List RE := [.dotStar]

/-- Group of the pattern of image_uid_from_fp: dot-star, slash,
dot-star, slash, dot-star, then the escaped dot (a literal) and j p g. -/
def uidGrp : List RE := [.dotStar, .ch '/', .dotStar, .ch '/', .dotStar, .ch '.', .ch 'j', .ch 'p', .ch 'g']

/-- Part of the annotation-filename pattern before the group: a greedy
nonempty digit run then a literal dash. -/
def labPre : List RE := [.digitPlus, .ch '-']

/-- Group of the annotation-filename pattern: a greedy dot-star. -/
def labGrp : List RE := [.dotStar]

/-- Part of the annotation-filename pattern after the group: the
escaped dot then the literal characters t x t. -/
def labPost : List RE := [.ch '.', .ch 't', .ch 'x', .ch 't']

/-- Captured group of the get_key_from_fp pattern on a character list. -/
def getKeyL (s : List Char) : Option (List Char) := reGroupMatch getKeyPre getKeyGrp [] s

/-- Captured group of the image_uid_from_fp pattern on a character list. -/
def uidKeyL (s : List Char) : Option (List Char) := reGroupMatch uidPre uidGrp [] s

/-- Captured group of the annotation-filename pattern on a character list. -/
def labelOfL (s : List Char) : Option (List Char) := reGroupMatch labPre labGrp labPost s

/-- Model of get_key_from_fp: the whole body is wrapped in a bare
try/except returning None, so a failed match (whose group(1) call would
raise AttributeError) yields None. -/
def get_key_from_fp (fp : String) : Option String :=
  (getKeyL fp.data).map String.mk

/-- Result of the inline re.match of the image-uid pattern, as used
both by image_uid_from_fp and by the loop body of main. -/
def uidMatch (f : String) : Option String :=
  (uidKeyL f.data).map String.mk

/-- Model of image_uid_from_fp.  On a successful match the captured
group is returned.  On a failed match the source prints a warning whose
format argument is the name fp, which is never bound in that scope (the
parameter is f), so evaluating the warning raises NameError instead of
reaching the return None statement. -/
def image_uid_from_fp (f : String) : Except PyError (Option String) :=
  match uidMatch f with
  | some k => Except.ok (some k)
  | none => Except.error PyError.nameError

/-- Filesystem environment of the annotation aggregator: listdir lists
a directory, and readCsv dir file is the parsed two-column table of the
file (row index, value) as read_csv with tab delimiter and index
column 0 produces it. -/
structure AnnoFS where
  listdir : String → List String
  readCsv : String → String → List (String × Int)

/-- Model of Python str.startswith, on the character lists of the two
strings. -/
def strStartsWith (s pre : String) : Bool := pre.data.isPrefixOf s.data

/-- Model of Python str.endswith, on the character lists of the two
strings. -/
def strEndsWith (s suf : String) : Bool := suf.data.isSuffixOf s.data

/-- Filter applied by make_annotations_df to each listed name: not a
hidden file, and the name ends in .txt. -/
def annoFileFilter (f : String) : Bool :=
  (!(strStartsWith f ("."))) && strEndsWith f (".txt")

/-- Label name extracted from an annotation filename by the pattern
digits-dash-group-dot-txt; None when the match fails, in which case the
source's group(1) call raises AttributeError. -/
def labelOf (f : String) : Option String :=
  (labelOfL f.data).map String.mk

/-- Loop of make_annotations_df over the listed filenames: names failing
the hidden/.txt filter are skipped; a name passing the filter whose
label extraction fails raises AttributeError; otherwise the extracted
label is paired with the table read from the file.  The contents are
read from the global flags directory flagsAnnoDir, not from the listed
directory (the source calls os.path.join(FLAGS.anno_dir, f)). -/
def collectAnnos (fs : AnnoFS) (flagsAnnoDir : String) : List String → Except PyError (List (String × List (String × Int)))
  | [] => Except.ok []
  | f :: rest =>
    if annoFileFilter f then
      match labelOf f with
      | none => Except.error PyError.attributeError
      | some label =>
        (collectAnnos fs flagsAnnoDir rest).map (fun l => (label, fs.readCsv flagsAnnoDir f) :: l)
    else collectAnnos fs flagsAnnoDir rest

/-- DataFrame model: a row index together with named columns, each
column being the assoc list of (row key, value) pairs contributed by
one annotation file.  A cell that no file contributed is the
missing-value marker, modelled as none by DF.cell. -/
structure DF where
  index : List String
  cols : List (String × List (String × Int))
deriving DecidableEq

/-- Helper of firstDedup: the fuel argument bounds the recursion depth
and starts at the length of the list, which only ever shrinks. -/
def firstDedupAux : Nat → List String → List String
  | 0, _ => []
  | _ + 1, [] => []
  | n + 1, x :: xs => x :: firstDedupAux n (xs.filter (fun y => y != x))

/-- Union of lists keeping the first occurrence of each element, the
index-union order of an outer-join concat with sort disabled. -/
def firstDedup (l : List String) : List String := firstDedupAux l.length l

/-- Model of pd.concat(annotations, axis equal to 1) with the default
outer join: the row index is the union of the row keys of all the
per-label tables, and each table becomes one column. -/
def concatOuter (annos : List (String × List (String × Int))) : DF :=
  DF.mk (firstDedup ((annos.map (fun a => a.2.map Prod.fst)).flatten)) annos

/-- Cell of column j at row key: the value the contributing file has
for that key, or none (the missing-value marker) when it has none. -/
def DF.cell (df : DF) (j : Nat) (key : String) : Option Int :=
  (df.cols.get? j).bind (fun col => (col.2.find? (fun r => r.1 == key)).map Prod.snd)

/-- Model of make_annotations_df: list the argument directory, build the
per-label tables (reading contents from the global flags directory),
and concatenate them.  pd.concat of an empty collection raises
ValueError, so an empty candidate list is an error, never an empty
table. -/
def make_annotations_df (fs : AnnoFS) (flagsAnnoDir annoDir : String) : Except PyError DF :=
  match collectAnnos fs flagsAnnoDir (fs.listdir annoDir) with
  | Except.error e => Except.error e
  | Except.ok annos =>
    if annos.isEmpty then Except.error PyError.valueError else Except.ok (concatOuter annos)

/-- Pixel array of an image: rows of pixel values, row-major as the
numpy array of a PIL image. -/
abbrev Pixels := List (List Nat)

/-- Bounding box of the first detection as the source unpacks it:
x1, y1, width, height. -/
structure Box where
  x1 : Int
  y1 : Int
  w : Int
  h : Int
deriving DecidableEq

/-- Clamp of one Python slice endpoint for a sequence of length n:
negative endpoints count from the end, and both ends are clamped into
the valid range. -/
def pySliceBound (n i : Int) : Nat :=
  (if i < 0 then max (n + i) 0 else min i n).toNat

/-- Python slice xs[a:b] with integer endpoints, numpy-style. -/
def pySlice (xs : List α) (a b : Int) : List α :=
  let lo := pySliceBound (Int.ofNat xs.length) a
  let hi := pySliceBound (Int.ofNat xs.length) b
  (xs.drop lo).take (hi - lo)

/-- Numpy two-dimensional slice pixels[y1:y2, x1:x2]. -/
def slice2d (px : Pixels) (y1 y2 x1 x2 : Int) : Pixels :=
  (pySlice px y1 y2).map (fun row => pySlice row x1 x2)

/-- External capabilities consumed by the pipeline: the recursive glob,
image loading (PIL open plus numpy conversion, which can fail with an
I/O error), the face detector, the PIL resize of the cropped array, and
the image save (which can fail with an I/O error). -/
structure World where
  glob : String → List String
  openImage : String → Except PyError Pixels
  detectFaces : Pixels → List Box
  resizeImg : Pixels → Nat × Nat → Pixels
  saveImg : String → Pixels → Except PyError Unit

/-- Model of extract_face: load the image, detect faces, take the box
of the FIRST detection (indexing an empty detection list raises
IndexError), slice the pixel array to that box, and resize the slice to
the required size.  The source's required_size default is (224, 224)
and main always uses the default. -/
def extract_face (w : World) (filename : String) (requiredSize : Nat × Nat) : Except PyError Pixels :=
  match w.openImage filename with
  | Except.error e => Except.error e
  | Except.ok pixels =>
    match w.detectFaces pixels with
    | [] => Except.error PyError.indexError
    | r :: _ =>
      let x2 := r.x1 + r.w
      let y2 := r.y1 + r.h
      let face := slice2d pixels r.y1 y2 r.x1 x2
      Except.ok (w.resizeImg face requiredSize)

/-- Model of os.path.dirname: everything up to the last slash, with
trailing slashes stripped unless the head is all slashes. -/
def dirname (p : String) : String :=
  let head := (p.data.reverse.dropWhile (fun c => c != '/')).reverse
  if head.isEmpty then String.mk head
  else if head.all (fun c => c == '/') then String.mk head
  else String.mk ((head.reverse.dropWhile (fun c => c == '/')).reverse)

/-- Filesystem accesses performed by the pipeline, in order: the glob
over the image directory, an image open, a destination-directory
creation, and an image save. -/
inductive FsEvent where
  | globbed : String → FsEvent
  | opened : String → FsEvent
  | madeDir : String → FsEvent
  | saved : String → FsEvent
deriving DecidableEq

/-- Per-image outcome of the pipeline: the destination path written on
success, or the skip-and-continue failure the loop records (by printing
a crop warning) for an image whose processing raised ValueError. -/
inductive Outcome where
  | success : String → Outcome
  | cropFailure : String → Outcome
deriving DecidableEq

/-- Body of the loop of main for one image path: extract the face,
rematch the image-uid pattern inline (a failed match raises
AttributeError from group(1)), build the destination path by direct
concatenation, create the destination directory, and save.  Returns the
filesystem accesses performed and either the destination path or the
raised error. -/
def processOne (w : World) (outDir f : String) : List FsEvent × Except PyError String :=
  match extract_face w f (224, 224) with
  | Except.error e => ([FsEvent.opened f], Except.error e)
  | Except.ok faceIm =>
    match uidMatch f with
    | none => ([FsEvent.opened f], Except.error PyError.attributeError)
    | some imageId =>
      let outFp := outDir ++ imageId
      match w.saveImg outFp faceIm with
      | Except.error e =>
        ([FsEvent.opened f, FsEvent.madeDir (dirname outFp), FsEvent.saved outFp], Except.error e)
      | Except.ok _ =>
        ([FsEvent.opened f, FsEvent.madeDir (dirname outFp), FsEvent.saved outFp], Except.ok outFp)

/-- Loop of main over the discovered image paths.  The try/except of
the source catches ONLY ValueError: a ValueError is recorded as a
failure outcome and the loop continues with the next image, while any
other error propagates immediately, aborting the remaining images. -/
def runLoop (w : World) (outDir : String) : List String → List FsEvent × Except PyError (List Outcome)
  | [] => ([], Except.ok [])
  | f :: fs =>
    match processOne w outDir f with
    | (evs, Except.ok outFp) =>
      let rest := runLoop w outDir fs
      (evs ++ rest.1, rest.2.map (fun os => Outcome.success outFp :: os))
    | (evs, Except.error PyError.valueError) =>
      let rest := runLoop w outDir fs
      (evs ++ rest.1, rest.2.map (fun os => Outcome.cropFailure f :: os))
    | (evs, Except.error e) => (evs, Except.error e)

namespace DetectFaces

/-- Model of main: assert that the output directory has no trailing
slash (before any filesystem access), glob recursively for jpg files,
assert the discovery found at least one file, then run the per-image
loop.  The returned trace lists the filesystem accesses in order. -/
def main (w : World) (imgDir outDir : String) : List FsEvent × Except PyError (List Outcome) :=
  if strEndsWith outDir ("/") then ([], Except.error PyError.assertionError)
  else
    let filepattern := imgDir ++ "**/*.jpg"
    let imageIds := w.glob filepattern
    if imageIds.length = 0 then ([FsEvent.globbed filepattern], Except.error PyError.assertionError)
    else
      let r := runLoop w outDir imageIds
      (FsEvent.globbed filepattern :: r.1, r.2)

end DetectFaces

/-- Concrete world for claim C1: the detector finds no face in the only
discovered image. -/
def wC1 : World :=
  World.mk (fun _ => ["img/p/i.jpg"]) (fun _ => Except.ok [[1, 2], [3, 4]])
    (fun _ => []) (fun px _ => px) (fun _ _ => Except.ok ())

/-- Concrete world for claim C4: loading the first discovered image
fails with an I/O error, loading the second raises ValueError, and any
other image processes cleanly. -/
def wC4 : World :=
  World.mk (fun _ => ["img/p/io.jpg", "img/p/ok.jpg"])
    (fun f =>
      if f = "img/p/io.jpg" then Except.error PyError.ioError
      else if f = "img/p/v.jpg" then Except.error PyError.valueError
      else Except.ok [[1, 2], [3, 4]])
    (fun _ => [Box.mk 0 0 1 1]) (fun px _ => px) (fun _ _ => Except.ok ())

/-- Concrete world for claim C7: discovery finds no image at all. -/
def wC7 : World :=
  World.mk (fun _ => []) (fun _ => Except.error PyError.ioError)
    (fun _ => []) (fun px _ => px) (fun _ _ => Except.ok ())

/-- Concrete world for claim C8: one image with two detected faces. -/
def wC8 : World :=
  World.mk (fun _ => ["img/p/i.jpg"]) (fun _ => Except.ok [[1, 2, 3], [4, 5, 6], [7, 8, 9]])
    (fun _ => [Box.mk 0 1 2 2, Box.mk 0 0 3 3]) (fun px _ => px) (fun _ _ => Except.ok ())

/-- Concrete annotation filesystem for claim C5: the directory lists a
hidden file, a file without the .txt suffix, and a well-formed
annotation file. -/
def afsC5 : AnnoFS :=
  AnnoFS.mk (fun _ => [".hidden.txt", "readme.md", "1-young.txt"])
    (fun _ _ => [("p/i.jpg", 1)])

/-- Concrete annotation filesystem for the C5 counterexample: the
directory lists one visible .txt file that does not match the
digits-dash-label pattern. -/
def afsC5x : AnnoFS :=
  AnnoFS.mk (fun _ => ["notes.txt"]) (fun _ _ => [("p/i.jpg", 1)])

/-- Concrete annotation filesystem for claim C6: two annotation files
with overlapping row indices. -/
def afsC6 : AnnoFS :=
  AnnoFS.mk (fun _ => ["1-young.txt", "2-open.txt"])
    (fun _ f =>
      if f = "1-young.txt" then [("k1", 1), ("k2", 2)]
      else [("k2", 5), ("k3", 6)])

/-- Concrete annotation filesystem for claim C9: the listed directory is
fixed, but the file contents to be read depend on the directory they
are read from, as with distinct FLAGS.anno_dir values. -/
def afsC9 : AnnoFS :=
  AnnoFS.mk (fun _ => ["1-young.txt"])
    (fun d _ => if d = "flagsA" then [("k1", 1)] else [("k1", 2)])

/-- Concrete annotation filesystem for claim C10: the directory lists
only a hidden file and a file without the .txt suffix. -/
def afsC10 : AnnoFS :=
  AnnoFS.mk (fun _ => [".hidden.txt", "readme.md"]) (fun _ _ => [("p/i.jpg", 1)])

/-- Concrete annotation filesystem for the C10 counterexample: the only
listed file is a visible .txt file that fails the label pattern, so no
listed file matches the naming pattern. -/
def afsC10x : AnnoFS :=
  AnnoFS.mk (fun _ => ["notes.txt"]) (fun _ _ => [("p/i.jpg", 1)])

/-! Lemmas about the candidate-selection fold of the matcher. -/

theorem firstSome?_cons_none {f : α → Option β} {a : α} (h : f a = none) (l : List α) :
    firstSome? f (a :: l) = firstSome? f l := by
  simp [firstSome?, h]

theorem firstSome?_cons_some {f : α → Option β} {a : α} {b : β} (h : f a = some b) (l : List α) :
    firstSome? f (a :: l) = some b := by
  simp [firstSome?, h]

theorem firstSome?_eq_none {f : α → Option β} {l : List α}
    (h : ∀ x ∈ l, f x = none) : firstSome? f l = none := by
  induction l with
  | nil => rfl
  | cons a l ih =>
    rw [firstSome?_cons_none (h a (List.mem_cons_self a l))]
    exact ih (fun x hx => h x (List.mem_cons_of_mem a hx))

theorem firstSome?_append_left {f : α → Option β} {l1 : List α} {b : β}
    (h : firstSome? f l1 = some b) (l2 : List α) :
    firstSome? f (l1 ++ l2) = some b := by
  induction l1 with
  | nil => exact absurd h (by simp [firstSome?])
  | cons a l ih =>
    rw [List.cons_append]
    cases hfa : f a with
    | some c => rw [firstSome?_cons_some hfa] at h ⊢; exact h
    | none =>
      rw [firstSome?_cons_none hfa] at h ⊢
      exact ih h

theorem firstSome?_append_none {f : α → Option β} {l1 : List α}
    (h : ∀ x ∈ l1, f x = none) (l2 : List α) :
    firstSome? f (l1 ++ l2) = firstSome? f l2 := by
  induction l1 with
  | nil => rfl
  | cons a l ih =>
    rw [List.cons_append, firstSome?_cons_none (h a (List.mem_cons_self a l))]
    exact ih (fun x hx => h x (List.mem_cons_of_mem a hx))

theorem exists_of_firstSome? {f : α → Option β} {l : List α}
    (h : firstSome? f l ≠ none) : ∃ x ∈ l, f x ≠ none := by
  induction l with
  | nil => exact absurd rfl h
  | cons a l ih =>
    cases hfa : f a with
    | some b => exact ⟨a, List.mem_cons_self a l, by simp [hfa]⟩
    | none =>
      rw [firstSome?_cons_none hfa] at h
      obtain ⟨x, hx, hfx⟩ := ih h
      exact ⟨x, List.mem_cons_of_mem a hx, hfx⟩

/-! Lemmas about the candidate lists of the greedy elements. -/

theorem mem_greedySuffixes {t : List Char} : ∀ {s : List Char},
    t ∈ greedySuffixes s → t <:+ s := by
  intro s
  induction s with
  | nil =>
    intro h
    simp [greedySuffixes] at h
    simp [h]
  | cons c s ih =>
    intro h
    rw [greedySuffixes] at h
    by_cases hc : c = '\n'
    · rw [if_pos hc] at h
      simp at h
      simp [h]
    · rw [if_neg hc, List.mem_append] at h
      rcases h with h | h
      · exact (ih h).trans (List.suffix_cons c s)
      · simp at h
        simp [h]

theorem mem_digitStarSuffixes {t : List Char} : ∀ {s : List Char},
    t ∈ digitStarSuffixes s → t <:+ s := by
  intro s
  induction s with
  | nil =>
    intro h
    simp [digitStarSuffixes] at h
    simp [h]
  | cons c s ih =>
    intro h
    rw [digitStarSuffixes] at h
    by_cases hd : c.isDigit
    · rw [if_pos hd, List.mem_append] at h
      rcases h with h | h
      · exact (ih h).trans (List.suffix_cons c s)
      · simp at h
        simp [h]
    · rw [if_neg hd] at h
      simp at h
      simp [h]

theorem mem_digitPlusSuffixes {t : List Char} : ∀ {s : List Char},
    t ∈ digitPlusSuffixes s → t <:+ s := by
  intro s
  match s with
  | [] => intro h; simp [digitPlusSuffixes] at h
  | c :: s =>
    intro h
    rw [digitPlusSuffixes] at h
    by_cases hd : c.isDigit
    · rw [if_pos hd] at h
      exact (mem_digitStarSuffixes h).trans (List.suffix_cons c s)
    · rw [if_neg hd] at h
      simp at h

theorem gs_append (a b : List Char) (ha : '\n' ∉ a) :
    greedySuffixes (a ++ b) = greedySuffixes b ++ tailsFrom a b := by
  induction a with
  | nil => simp [tailsFrom]
  | cons c a ih =>
    have hc : ¬(c = '\n') := fun h => ha (by simp [h])
    rw [List.cons_append, greedySuffixes, if_neg hc,
      ih (fun h => ha (List.mem_cons_of_mem c h)), tailsFrom, List.append_assoc]

theorem mem_tailsFrom {t : List Char} : ∀ {a b : List Char},
    t ∈ tailsFrom a b → ∃ c a2, (c :: a2) <:+ a ∧ t = c :: (a2 ++ b) := by
  intro a
  induction a with
  | nil => intro b h; simp [tailsFrom] at h
  | cons c a ih =>
    intro b h
    rw [tailsFrom, List.mem_append] at h
    rcases h with h | h
    · obtain ⟨c2, a2, hsuf, ht⟩ := ih h
      exact ⟨c2, a2, hsuf.trans (List.suffix_cons c a), ht⟩
    · simp at h
      exact ⟨c, a, List.suffix_refl _, h⟩

/-! Failure lemmas for the matcher: a pattern containing a literal the
subject lacks cannot match, and each literal in the pattern consumes a
distinct copy of that character from the subject. -/

theorem reMatch_none_of_missing {β : Type} {c : Char} : ∀ (ps : List RE) (t : List Char)
    (k : List Char → Option β), RE.ch c ∈ ps → c ∉ t → reMatch ps t k = none := by
  intro ps
  induction ps with
  | nil => intro t k h _; simp at h
  | cons p ps ih =>
    intro t k hmem hc
    cases p with
    | ch a =>
      cases t with
      | nil => rfl
      | cons b t =>
        rw [reMatch]
        by_cases hba : b = a
        · have hcps : RE.ch c ∈ ps := by
            rcases List.mem_cons.mp hmem with h | h
            · exfalso
              have : c = a := by injection h
              exact hc (by simp [this, hba.symm])
            · exact h
          rw [if_pos hba]
          exact ih t k hcps (fun hh => hc (List.mem_cons_of_mem b hh))
        · rw [if_neg hba]
    | anyCh =>
      cases t with
      | nil => rfl
      | cons b t =>
        rw [reMatch]
        by_cases hbn : b = '\n'
        · rw [if_pos hbn]
        · rw [if_neg hbn]
          have hcps : RE.ch c ∈ ps := by
            rcases List.mem_cons.mp hmem with h | h
            · exact absurd h (by simp)
            · exact h
          exact ih t k hcps (fun hh => hc (List.mem_cons_of_mem b hh))
    | dotStar =>
      rw [reMatch]
      have hcps : RE.ch c ∈ ps := by
        rcases List.mem_cons.mp hmem with h | h
        · exact absurd h (by simp)
        · exact h
      exact firstSome?_eq_none (fun x hx =>
        ih x k hcps (fun hh => hc ((mem_greedySuffixes hx).subset hh)))
    | digitPlus =>
      rw [reMatch]
      have hcps : RE.ch c ∈ ps := by
        rcases List.mem_cons.mp hmem with h | h
        · exact absurd h (by simp)
        · exact h
      exact firstSome?_eq_none (fun x hx =>
        ih x k hcps (fun hh => hc ((mem_digitPlusSuffixes hx).subset hh)))

theorem reMatch_count {β : Type} {c : Char} : ∀ (ps : List RE) (t : List Char)
    (k : List Char → Option β), reMatch ps t k ≠ none →
    ∃ u, u <:+ t ∧ k u ≠ none ∧ litCount c ps + u.count c ≤ t.count c := by
  intro ps
  induction ps with
  | nil =>
    intro t k h
    exact ⟨t, List.suffix_refl t, h, by simp [litCount]⟩
  | cons p ps ih =>
    intro t k h
    cases p with
    | ch a =>
      cases t with
      | nil => exact absurd rfl h
      | cons b t =>
        rw [reMatch] at h
        by_cases hba : b = a
        · rw [if_pos hba] at h
          obtain ⟨u, hsuf, hk, hcnt⟩ := ih t k h
          refine ⟨u, hsuf.trans (List.suffix_cons b t), hk, ?_⟩
          rw [litCount, List.count_cons]
          subst hba
          by_cases hac : b = c
          · simp only [if_pos hac, hac, beq_self_eq_true, if_pos]
            omega
          · have : (b == c) = false := beq_eq_false_iff_ne.mpr hac
            simp only [if_neg hac, this]
            omega
        · rw [if_neg hba] at h
          exact absurd rfl h
    | anyCh =>
      cases t with
      | nil => exact absurd rfl h
      | cons b t =>
        rw [reMatch] at h
        by_cases hbn : b = '\n'
        · rw [if_pos hbn] at h
          exact absurd rfl h
        · rw [if_neg hbn] at h
          obtain ⟨u, hsuf, hk, hcnt⟩ := ih t k h
          refine ⟨u, hsuf.trans (List.suffix_cons b t), hk, ?_⟩
          rw [litCount, List.count_cons]
          split <;> omega
    | dotStar =>
      rw [reMatch] at h
      obtain ⟨x, hx, hfx⟩ := exists_of_firstSome? h
      obtain ⟨u, hsuf, hk, hcnt⟩ := ih x k hfx
      have hxs : x <:+ t := mem_greedySuffixes hx
      refine ⟨u, hsuf.trans hxs, hk, ?_⟩
      have := hxs.sublist.count_le c
      rw [litCount]
      omega
    | digitPlus =>
      rw [reMatch] at h
      obtain ⟨x, hx, hfx⟩ := exists_of_firstSome? h
      obtain ⟨u, hsuf, hk, hcnt⟩ := ih x k hfx
      have hxs : x <:+ t := mem_digitPlusSuffixes hx
      refine ⟨u, hsuf.trans hxs, hk, ?_⟩
      have := hxs.sublist.count_le c
      rw [litCount]
      omega

theorem reMatch_count_le {β : Type} {c : Char} {ps : List RE} {t : List Char}
    {k : List Char → Option β} (h : reMatch ps t k ≠ none) :
    litCount c ps ≤ t.count c := by
  obtain ⟨u, _, _, hcnt⟩ := @reMatch_count β c ps t k h
  omega

theorem reMatch_chain_count_le {β : Type} {c : Char} {ps qs : List RE} {t : List Char}
    {g : List Char → List Char → Option β}
    (h : reMatch ps t (fun u => reMatch qs u (g u)) ≠ none) :
    litCount c ps + litCount c qs ≤ t.count c := by
  obtain ⟨u, _, hk, hcnt⟩ := @reMatch_count β c ps t _ h
  have := @reMatch_count_le _ c _ _ _ hk
  omega

/-! Greedy search over a subject of the shape d ++ slash ++ rest: when
every candidate that is a suffix of rest fails, the first success is the
candidate starting at that slash, whatever d contains. -/

theorem firstSome?_gs_split {β : Type} (F : List Char → Option β) (d rest : List Char) {b : β}
    (hd : '\n' ∉ d)
    (h1 : ∀ t, t <:+ rest → F t = none)
    (h2 : F ('/' :: rest) = some b) :
    firstSome? F (greedySuffixes (d ++ '/' :: rest)) = some b := by
  rw [gs_append d ('/' :: rest) hd]
  apply firstSome?_append_left
  rw [greedySuffixes, if_neg (by decide : ¬(('/' : Char) = '\n'))]
  rw [firstSome?_append_none (fun x hx => h1 x (mem_greedySuffixes hx))]
  exact firstSome?_cons_some h2 []

/-! Final segment of both path patterns on a subject ending in .jpg:
the greedy star consumes the whole remainder and the literal tail eats
the final .jpg, so the continuation is reached with nothing left. -/

theorem firstSome?_five {f : List Char → Option β} {b : β}
    (h1 : f [] = none) (h2 : f ['g'] = none) (h3 : f ['p', 'g'] = none)
    (h4 : f ['j', 'p', 'g'] = none) (h5 : f jpgL = some b) :
    firstSome? f [[], ['g'], ['p', 'g'], ['j', 'p', 'g'], jpgL] = some b := by
  rw [firstSome?_cons_none h1, firstSome?_cons_none h2, firstSome?_cons_none h3,
    firstSome?_cons_none h4]
  exact firstSome?_cons_some h5 []

theorem reMatch_jpg_tail_any {β : Type} (i : List Char) (hni : '\n' ∉ i)
    (k : List Char → Option β) {b : β} (hk : k [] = some b) :
    reMatch [RE.dotStar, RE.anyCh, RE.ch 'j', RE.ch 'p', RE.ch 'g'] (i ++ jpgL) k = some b := by
  show firstSome? (fun t => reMatch [RE.anyCh, RE.ch 'j', RE.ch 'p', RE.ch 'g'] t k)
      (greedySuffixes (i ++ jpgL)) = some b
  rw [gs_append i jpgL hni]
  apply firstSome?_append_left
  show firstSome? _ [[], ['g'], ['p', 'g'], ['j', 'p', 'g'], jpgL] = some b
  exact firstSome?_five rfl rfl rfl rfl hk

theorem reMatch_jpg_tail_dot {β : Type} (i : List Char) (hni : '\n' ∉ i)
    (k : List Char → Option β) {b : β} (hk : k [] = some b) :
    reMatch [RE.dotStar, RE.ch '.', RE.ch 'j', RE.ch 'p', RE.ch 'g'] (i ++ jpgL) k = some b := by
  show firstSome? (fun t => reMatch [RE.ch '.', RE.ch 'j', RE.ch 'p', RE.ch 'g'] t k)
      (greedySuffixes (i ++ jpgL)) = some b
  rw [gs_append i jpgL hni]
  apply firstSome?_append_left
  show firstSome? _ [[], ['g'], ['p', 'g'], ['j', 'p', 'g'], jpgL] = some b
  exact firstSome?_five rfl rfl rfl rfl hk

/-! Characterisation of the two path-key patterns on well-shaped paths,
built level by level with a generic continuation. -/

theorem slash_free_append_jpg {i : List Char} (hi : '/' ∉ i) : '/' ∉ i ++ jpgL := by
  intro h
  rcases List.mem_append.mp h with h | h
  · exact hi h
  · simp [jpgL] at h

theorem getKeyGrp_at {β : Type} (p i : List Char) (hi : '/' ∉ i)
    (hnp : '\n' ∉ p) (hni : '\n' ∉ i)
    (k : List Char → Option β) {b : β} (hk : k [] = some b) :
    reMatch [RE.dotStar, RE.ch '/', RE.dotStar, RE.anyCh, RE.ch 'j', RE.ch 'p', RE.ch 'g']
      (p ++ '/' :: (i ++ jpgL)) k = some b := by
  show firstSome?
      (fun t => reMatch [RE.ch '/', RE.dotStar, RE.anyCh, RE.ch 'j', RE.ch 'p', RE.ch 'g'] t k)
      (greedySuffixes (p ++ '/' :: (i ++ jpgL))) = some b
  apply firstSome?_gs_split _ _ _ hnp
  · intro t hts
    by_contra hne
    have hb := @reMatch_count_le _ '/' _ _ _ hne
    have h1 : litCount '/' [RE.ch '/', RE.dotStar, RE.anyCh, RE.ch 'j', RE.ch 'p', RE.ch 'g'] = 1 := rfl
    have hcw : (i ++ jpgL).count '/' = 0 := List.count_eq_zero.mpr (slash_free_append_jpg hi)
    have hle : t.count '/' ≤ (i ++ jpgL).count '/' := hts.sublist.count_le '/'
    omega
  · show reMatch [RE.dotStar, RE.anyCh, RE.ch 'j', RE.ch 'p', RE.ch 'g'] (i ++ jpgL) k = some b
    exact reMatch_jpg_tail_any i hni k hk

theorem uidGrpTail_at {β : Type} (p i : List Char) (hi : '/' ∉ i)
    (hnp : '\n' ∉ p) (hni : '\n' ∉ i)
    (k : List Char → Option β) {b : β} (hk : k [] = some b) :
    reMatch [RE.dotStar, RE.ch '/', RE.dotStar, RE.ch '.', RE.ch 'j', RE.ch 'p', RE.ch 'g']
      (p ++ '/' :: (i ++ jpgL)) k = some b := by
  show firstSome?
      (fun t => reMatch [RE.ch '/', RE.dotStar, RE.ch '.', RE.ch 'j', RE.ch 'p', RE.ch 'g'] t k)
      (greedySuffixes (p ++ '/' :: (i ++ jpgL))) = some b
  apply firstSome?_gs_split _ _ _ hnp
  · intro t hts
    by_contra hne
    have hb := @reMatch_count_le _ '/' _ _ _ hne
    have h1 : litCount '/' [RE.ch '/', RE.dotStar, RE.ch '.', RE.ch 'j', RE.ch 'p', RE.ch 'g'] = 1 := rfl
    have hcw : (i ++ jpgL).count '/' = 0 := List.count_eq_zero.mpr (slash_free_append_jpg hi)
    have hle : t.count '/' ≤ (i ++ jpgL).count '/' := hts.sublist.count_le '/'
    omega
  · show reMatch [RE.dotStar, RE.ch '.', RE.ch 'j', RE.ch 'p', RE.ch 'g'] (i ++ jpgL) k = some b
    exact reMatch_jpg_tail_dot i hni k hk

theorem count_slash_rest {p i : List Char} (hp : '/' ∉ p) (hi : '/' ∉ i) :
    (p ++ '/' :: (i ++ jpgL)).count '/' = 1 := by
  have hcw : (i ++ jpgL).count '/' = 0 := List.count_eq_zero.mpr (slash_free_append_jpg hi)
  have hcp : p.count '/' = 0 := List.count_eq_zero.mpr hp
  rw [List.count_append, List.count_cons]
  simp [hcw, hcp]

theorem uidGrp_at {β : Type} (p i : List Char) (hp : '/' ∉ p) (hi : '/' ∉ i)
    (hnp : '\n' ∉ p) (hni : '\n' ∉ i)
    (k : List Char → Option β) {b : β} (hk : k [] = some b) :
    reMatch [RE.dotStar, RE.ch '/', RE.dotStar, RE.ch '/', RE.dotStar, RE.ch '.', RE.ch 'j', RE.ch 'p', RE.ch 'g']
      ('/' :: (p ++ '/' :: (i ++ jpgL))) k = some b := by
  show firstSome?
      (fun t => reMatch [RE.ch '/', RE.dotStar, RE.ch '/', RE.dotStar, RE.ch '.', RE.ch 'j', RE.ch 'p', RE.ch 'g'] t k)
      (greedySuffixes ([] ++ '/' :: (p ++ '/' :: (i ++ jpgL)))) = some b
  apply firstSome?_gs_split _ _ _ (by simp)
  · intro t hts
    by_contra hne
    have hb := @reMatch_count_le _ '/' _ _ _ hne
    have h1 : litCount '/'
        [RE.ch '/', RE.dotStar, RE.ch '/', RE.dotStar, RE.ch '.', RE.ch 'j', RE.ch 'p', RE.ch 'g'] = 2 := rfl
    have hle : t.count '/' ≤ (p ++ '/' :: (i ++ jpgL)).count '/' := hts.sublist.count_le '/'
    have hcrest := count_slash_rest hp hi
    omega
  · show reMatch [RE.dotStar, RE.ch '/', RE.dotStar, RE.ch '.', RE.ch 'j', RE.ch 'p', RE.ch 'g']
        (p ++ '/' :: (i ++ jpgL)) k = some b
    exact uidGrpTail_at p i hi hnp hni k hk

theorem getKeyL_valid (d p i : List Char) (hp : '/' ∉ p) (hi : '/' ∉ i)
    (hnd : '\n' ∉ d) (hnp : '\n' ∉ p) (hni : '\n' ∉ i) :
    getKeyL (d ++ '/' :: (p ++ '/' :: (i ++ jpgL))) = some (p ++ '/' :: (i ++ jpgL)) := by
  show firstSome?
      (fun t => reMatch [RE.ch '/'] t
        (fun s1 => reMatch [RE.dotStar, RE.ch '/', RE.dotStar, RE.anyCh, RE.ch 'j', RE.ch 'p', RE.ch 'g'] s1
          (fun s2 => some (s1.take (s1.length - s2.length)))))
      (greedySuffixes (d ++ '/' :: (p ++ '/' :: (i ++ jpgL)))) = some (p ++ '/' :: (i ++ jpgL))
  apply firstSome?_gs_split _ _ _ hnd
  · intro t hts
    by_contra hne
    have hb := @reMatch_chain_count_le _ '/' [RE.ch '/']
        [RE.dotStar, RE.ch '/', RE.dotStar, RE.anyCh, RE.ch 'j', RE.ch 'p', RE.ch 'g'] t _ hne
    have h1 : litCount '/' [RE.ch '/'] = 1 := rfl
    have h2 : litCount '/' [RE.dotStar, RE.ch '/', RE.dotStar, RE.anyCh, RE.ch 'j', RE.ch 'p', RE.ch 'g'] = 1 := rfl
    have hle : t.count '/' ≤ (p ++ '/' :: (i ++ jpgL)).count '/' := hts.sublist.count_le '/'
    have hcrest := count_slash_rest hp hi
    omega
  · show reMatch [RE.dotStar, RE.ch '/', RE.dotStar, RE.anyCh, RE.ch 'j', RE.ch 'p', RE.ch 'g']
        (p ++ '/' :: (i ++ jpgL))
        (fun s2 => some ((p ++ '/' :: (i ++ jpgL)).take ((p ++ '/' :: (i ++ jpgL)).length - s2.length)))
        = some (p ++ '/' :: (i ++ jpgL))
    apply getKeyGrp_at p i hi hnp hni
    simp

theorem uidKeyL_valid (d p i : List Char) (hp : '/' ∉ p) (hi : '/' ∉ i)
    (hnd : '\n' ∉ d) (hnp : '\n' ∉ p) (hni : '\n' ∉ i) :
    uidKeyL (d ++ '/' :: (p ++ '/' :: (i ++ jpgL))) = some ('/' :: (p ++ '/' :: (i ++ jpgL))) := by
  show firstSome?
      (fun t => reMatch [RE.dotStar, RE.ch '/', RE.dotStar, RE.ch '/', RE.dotStar, RE.ch '.', RE.ch 'j', RE.ch 'p', RE.ch 'g'] t
        (fun s2 => some (t.take (t.length - s2.length))))
      (greedySuffixes (d ++ '/' :: (p ++ '/' :: (i ++ jpgL)))) = some ('/' :: (p ++ '/' :: (i ++ jpgL)))
  apply firstSome?_gs_split _ _ _ hnd
  · intro t hts
    by_contra hne
    have hb := @reMatch_count_le _ '/' _ _ _ hne
    have h1 : litCount '/'
        [RE.dotStar, RE.ch '/', RE.dotStar, RE.ch '/', RE.dotStar, RE.ch '.', RE.ch 'j', RE.ch 'p', RE.ch 'g'] = 2 := rfl
    have hle : t.count '/' ≤ (p ++ '/' :: (i ++ jpgL)).count '/' := hts.sublist.count_le '/'
    have hcrest := count_slash_rest hp hi
    omega
  · show reMatch [RE.dotStar, RE.ch '/', RE.dotStar, RE.ch '/', RE.dotStar, RE.ch '.', RE.ch 'j', RE.ch 'p', RE.ch 'g']
        ('/' :: (p ++ '/' :: (i ++ jpgL)))
        (fun s2 => some (('/' :: (p ++ '/' :: (i ++ jpgL))).take (('/' :: (p ++ '/' :: (i ++ jpgL))).length - s2.length)))
        = some ('/' :: (p ++ '/' :: (i ++ jpgL)))
    apply uidGrp_at p i hp hi hnp hni
    simp

theorem getKeyL_short {s : List Char} (h : s.count '/' < 2) : getKeyL s = none := by
  by_contra hne
  rw [getKeyL, reGroupMatch] at hne
  have hb := @reMatch_chain_count_le _ '/' getKeyPre getKeyGrp s _ hne
  have h1 : litCount '/' getKeyPre = 1 := rfl
  have h2 : litCount '/' getKeyGrp = 1 := rfl
  omega

theorem uidKeyL_short {s : List Char} (h : s.count '/' < 2) : uidKeyL s = none := by
  by_contra hne
  rw [uidKeyL, reGroupMatch] at hne
  have hb := @reMatch_chain_count_le _ '/' uidPre uidGrp s _ hne
  have h1 : litCount '/' uidPre = 0 := rfl
  have h2 : litCount '/' uidGrp = 2 := rfl
  omega

/-! Lemmas about the annotation aggregator. -/

theorem except_map_error_iff {ε α β : Type} (g : α → β) (x : Except ε α) (e : ε) :
    x.map g = Except.error e ↔ x = Except.error e := by
  cases x <;> simp [Except.map]

theorem collectAnnos_skip (fs : AnnoFS) (fl : String) {f : String}
    (h : annoFileFilter f = false) (l : List String) :
    collectAnnos fs fl (f :: l) = collectAnnos fs fl l := by
  simp [collectAnnos, h]

theorem collectAnnos_error_iff (fs : AnnoFS) (fl : String) (l : List String) :
    collectAnnos fs fl l = Except.error PyError.attributeError ↔
      ∃ f ∈ l, annoFileFilter f = true ∧ labelOf f = none := by
  induction l with
  | nil => simp [collectAnnos]
  | cons f rest ih =>
    by_cases hf : annoFileFilter f
    · cases hl : labelOf f with
      | none =>
        simp only [collectAnnos, hf, if_true, hl]
        constructor
        · intro _
          exact ⟨f, List.mem_cons_self f rest, hf, hl⟩
        · intro _
          trivial
      | some lab =>
        simp only [collectAnnos, hf, if_true, hl]
        rw [except_map_error_iff, ih]
        constructor
        · rintro ⟨g, hg, hgf, hgl⟩
          exact ⟨g, List.mem_cons_of_mem f hg, hgf, hgl⟩
        · rintro ⟨g, hg, hgf, hgl⟩
          rcases List.mem_cons.mp hg with rfl | hg
          · rw [hl] at hgl
            exact absurd hgl (by simp)
          · exact ⟨g, hg, hgf, hgl⟩
    · have hf0 : annoFileFilter f = false := by simpa using hf
      rw [collectAnnos_skip fs fl hf0, ih]
      constructor
      · rintro ⟨g, hg, hgf, hgl⟩
        exact ⟨g, List.mem_cons_of_mem f hg, hgf, hgl⟩
      · rintro ⟨g, hg, hgf, hgl⟩
        rcases List.mem_cons.mp hg with rfl | hg
        · rw [hf0] at hgf
          exact absurd hgf (by simp)
        · exact ⟨g, hg, hgf, hgl⟩

theorem collectAnnos_error_val (fs : AnnoFS) (fl : String) : ∀ (l : List String) (e : PyError),
    collectAnnos fs fl l = Except.error e → e = PyError.attributeError := by
  intro l
  induction l with
  | nil =>
    intro e h
    simp [collectAnnos] at h
  | cons f rest ih =>
    intro e h
    by_cases hf : annoFileFilter f
    · cases hl : labelOf f with
      | none =>
        simp only [collectAnnos, hf, if_true, hl] at h
        injection h with h
        exact h.symm
      | some lab =>
        simp only [collectAnnos, hf, if_true, hl] at h
        rw [except_map_error_iff] at h
        exact ih e h
    · have hf0 : annoFileFilter f = false := by simpa using hf
      rw [collectAnnos_skip fs fl hf0] at h
      exact ih e h

theorem collectAnnos_ok_nil (fs : AnnoFS) (fl : String) : ∀ {l : List String},
    (∀ f ∈ l, annoFileFilter f = false) → collectAnnos fs fl l = Except.ok [] := by
  intro l
  induction l with
  | nil => intro _; rfl
  | cons f rest ih =>
    intro h
    rw [collectAnnos_skip fs fl (h f (List.mem_cons_self f rest))]
    exact ih (fun g hg => h g (List.mem_cons_of_mem f hg))

theorem mem_firstDedupAux : ∀ (n : Nat) (l : List String), l.length ≤ n →
    ∀ (a : String), (a ∈ firstDedupAux n l ↔ a ∈ l) := by
  intro n
  induction n with
  | zero =>
    intro l hl a
    cases l with
    | nil => simp [firstDedupAux]
    | cons x xs => exact absurd hl (by simp)
  | succ n ih =>
    intro l hl a
    cases l with
    | nil => simp [firstDedupAux]
    | cons x xs =>
      rw [firstDedupAux]
      have hlen : (xs.filter (fun y => y != x)).length ≤ n :=
        le_trans (List.length_filter_le _ _) (Nat.le_of_succ_le_succ hl)
      simp only [List.mem_cons, ih (xs.filter (fun y => y != x)) hlen, List.mem_filter]
      constructor
      · rintro (rfl | ⟨h1, _⟩)
        · exact Or.inl rfl
        · exact Or.inr h1
      · rintro (rfl | h1)
        · exact Or.inl rfl
        · by_cases hax : a = x
          · exact Or.inl hax
          · exact Or.inr ⟨h1, by simp [hax]⟩

theorem mem_firstDedup (l : List String) (a : String) : a ∈ firstDedup l ↔ a ∈ l :=
  mem_firstDedupAux l.length l (le_refl _) a

theorem concatOuter_index_mem (annos : List (String × List (String × Int))) (k : String) :
    k ∈ (concatOuter annos).index ↔ ∃ a ∈ annos, k ∈ a.2.map Prod.fst := by
  simp only [concatOuter, mem_firstDedup, List.mem_flatten]
  constructor
  · rintro ⟨lk, hlk, hk⟩
    obtain ⟨a, ha, rfl⟩ := List.mem_map.mp hlk
    exact ⟨a, ha, hk⟩
  · rintro ⟨a, ha, hk⟩
    exact ⟨a.2.map Prod.fst, List.mem_map.mpr ⟨a, ha, rfl⟩, hk⟩

theorem concatOuter_cell_none (annos : List (String × List (String × Int))) (j : Nat)
    (a : String × List (String × Int)) (hj : annos.get? j = some a) (k : String) :
    (concatOuter annos).cell j k = none ↔ k ∉ a.2.map Prod.fst := by
  simp only [DF.cell, concatOuter]
  rw [hj]
  simp only [Option.some_bind]
  rw [Option.map_eq_none', List.find?_eq_none]
  constructor
  · intro h hk
    obtain ⟨r, hr, hrk⟩ := List.mem_map.mp hk
    exact (h r hr) (by simp [hrk])
  · intro h r hr hbeq
    exact h (List.mem_map.mpr ⟨r, hr, eq_of_beq hbeq⟩)

theorem make_annotations_ok (fs : AnnoFS) (fl dir : String)
    {annos : List (String × List (String × Int))}
    (hc : collectAnnos fs fl (fs.listdir dir) = Except.ok annos) (hne : annos ≠ []) :
    make_annotations_df fs fl dir = Except.ok (concatOuter annos) := by
  cases annos with
  | nil => exact absurd rfl hne
  | cons a l => simp [make_annotations_df, hc]

/-! Lemmas about the per-image loop of main. -/

theorem runLoop_cons_valueError (w : World) (outDir f : String) (fs : List String)
    (evs : List FsEvent) (h : processOne w outDir f = (evs, Except.error PyError.valueError)) :
    runLoop w outDir (f :: fs)
      = (evs ++ (runLoop w outDir fs).1,
         (runLoop w outDir fs).2.map (fun os => Outcome.cropFailure f :: os)) := by
  simp only [runLoop, h]

theorem runLoop_cons_other (w : World) (outDir f : String) (fs : List String)
    (evs : List FsEvent) (e : PyError) (hne : e ≠ PyError.valueError)
    (h : processOne w outDir f = (evs, Except.error e)) :
    runLoop w outDir (f :: fs) = (evs, Except.error e) := by
  cases e
  · exact absurd rfl hne
  all_goals simp only [runLoop, h]

/-- C1 (corrected): when the detector returns an empty detection list,
extract_face fails by indexing into the empty list, raising IndexError
(there is no NoFaceDetected exception in the code); and because the loop
of main catches only ValueError, that IndexError is not converted into a
per-image failure outcome but propagates out of the loop, aborting the
remaining images. -/
theorem claim_C1 (w : World) (f outDir : String) (fs : List String) (px : Pixels)
    (h1 : w.openImage f = Except.ok px) (h2 : w.detectFaces px = []) :
    extract_face w f (224, 224) = Except.error PyError.indexError ∧
    (runLoop w outDir (f :: fs)).2 = Except.error PyError.indexError := by
  have he : extract_face w f (224, 224) = Except.error PyError.indexError := by
    simp only [extract_face, h1, h2]
  refine ⟨he, ?_⟩
  have hp : processOne w outDir f = ([FsEvent.opened f], Except.error PyError.indexError) := by
    simp only [processOne, he]
  rw [runLoop_cons_other w outDir f fs _ _ (by decide) hp]

/-- Witness for C1 at a concrete world whose detector finds nothing. -/
theorem claim_C1_witness :
    wC1.openImage "img/p/i.jpg" = Except.ok [[1, 2], [3, 4]] ∧
    (extract_face wC1 "img/p/i.jpg" (224, 224) = Except.error PyError.indexError ∧
     (runLoop wC1 "out" ["img/p/i.jpg"]).2 = Except.error PyError.indexError) :=
  ⟨rfl, claim_C1 wC1 "img/p/i.jpg" "out" [] [[1, 2], [3, 4]] rfl rfl⟩

/-- Counterexample for C1 as stated: in a world where the detector
returns the empty list for the only discovered image, the pipeline does
not record a failure outcome and continue; the IndexError escapes main,
so the run ends in an error instead of an outcome list. -/
theorem claim_C1_counterexample :
    wC1.detectFaces [[1, 2], [3, 4]] = [] ∧
    DetectFaces.main wC1 "img/" "out"
      = ([FsEvent.globbed "img/**/*.jpg", FsEvent.opened "img/p/i.jpg"],
         Except.error PyError.indexError) :=
  ⟨rfl, rfl⟩

/-- C4 (corrected): the loop of main isolates exactly the per-image
errors raised as ValueError, recording a failure outcome and continuing
with the remaining images; any other per-image error, in particular an
I/O error from reading or writing, is not caught and propagates out of
the loop immediately, so the remaining images are not processed. -/
theorem claim_C4 (w : World) (outDir f : String) (fs : List String) (evs : List FsEvent) :
    (processOne w outDir f = (evs, Except.error PyError.valueError) →
      runLoop w outDir (f :: fs)
        = (evs ++ (runLoop w outDir fs).1,
           (runLoop w outDir fs).2.map (fun os => Outcome.cropFailure f :: os))) ∧
    (∀ e : PyError, e ≠ PyError.valueError →
      processOne w outDir f = (evs, Except.error e) →
      runLoop w outDir (f :: fs) = (evs, Except.error e)) :=
  ⟨fun h => runLoop_cons_valueError w outDir f fs evs h,
   fun e hne h => runLoop_cons_other w outDir f fs evs e hne h⟩

/-- Witness for C4: a ValueError image is skipped and the loop
continues, while an I/O-error image aborts the loop. -/
theorem claim_C4_witness :
    (runLoop wC4 "out" ["img/p/v.jpg", "img/p/ok.jpg"]
      = ([FsEvent.opened "img/p/v.jpg"] ++ (runLoop wC4 "out" ["img/p/ok.jpg"]).1,
         (runLoop wC4 "out" ["img/p/ok.jpg"]).2.map
           (fun os => Outcome.cropFailure "img/p/v.jpg" :: os))) ∧
    runLoop wC4 "out" ["img/p/io.jpg", "img/p/ok.jpg"]
      = ([FsEvent.opened "img/p/io.jpg"], Except.error PyError.ioError) :=
  ⟨(claim_C4 wC4 "out" "img/p/v.jpg" ["img/p/ok.jpg"] [FsEvent.opened "img/p/v.jpg"]).1 rfl,
   (claim_C4 wC4 "out" "img/p/io.jpg" ["img/p/ok.jpg"]
      [FsEvent.opened "img/p/io.jpg"]).2 PyError.ioError (by decide) rfl⟩

/-- Counterexample for C4 as stated: in a world where loading the first
of two discovered images fails with an I/O error, the error is not
converted into a failure outcome; it propagates out of main and the
second image is never opened. -/
theorem claim_C4_counterexample :
    wC4.openImage "img/p/io.jpg" = Except.error PyError.ioError ∧
    DetectFaces.main wC4 "img/" "out"
      = ([FsEvent.globbed "img/**/*.jpg", FsEvent.opened "img/p/io.jpg"],
         Except.error PyError.ioError) :=
  ⟨rfl, rfl⟩

/-- C7 (confirmed): with an out_dir ending in a path separator, main
fails on the leading assert before any filesystem access (the returned
trace is empty); and when discovery yields zero files, main fails on the
second assert after only the glob, before any per-image processing or
write (the trace holds the glob access alone). -/
theorem claim_C7 (w : World) (imgDir outDir : String) :
    (strEndsWith outDir ("/") = true →
      DetectFaces.main w imgDir outDir = ([], Except.error PyError.assertionError)) ∧
    (strEndsWith outDir ("/") = false →
      w.glob (imgDir ++ "**/*.jpg") = [] →
      DetectFaces.main w imgDir outDir
        = ([FsEvent.globbed (imgDir ++ "**/*.jpg")], Except.error PyError.assertionError)) := by
  constructor
  · intro h
    simp [DetectFaces.main, h]
  · intro h hg
    simp [DetectFaces.main, h, hg]

/-- Witness for C7 at a concrete world with empty discovery. -/
theorem claim_C7_witness :
    DetectFaces.main wC7 "img/" "out/" = ([], Except.error PyError.assertionError) ∧
    DetectFaces.main wC7 "img/" "out"
      = ([FsEvent.globbed "img/**/*.jpg"], Except.error PyError.assertionError) :=
  ⟨(claim_C7 wC7 "img/" "out/").1 rfl, (claim_C7 wC7 "img/" "out").2 rfl rfl⟩

/-- C8 (confirmed): whenever the detector reports at least one
detection, extract_face uses exactly the box of the first detection,
with no ranking or confidence filtering, slices the pixel array to that
box with numpy slice semantics, and returns that slice resized to the
required size, which main fixes at 224 by 224. -/
theorem claim_C8 (w : World) (f : String) (px : Pixels) (r : Box) (rest : List Box)
    (h1 : w.openImage f = Except.ok px) (h2 : w.detectFaces px = r :: rest) :
    extract_face w f (224, 224)
      = Except.ok (w.resizeImg (slice2d px r.y1 (r.y1 + r.h) r.x1 (r.x1 + r.w)) (224, 224)) := by
  simp only [extract_face, h1, h2]

/-- Witness for C8: the first of two detections is the one cropped. -/
theorem claim_C8_witness :
    wC8.detectFaces [[1, 2, 3], [4, 5, 6], [7, 8, 9]] = [Box.mk 0 1 2 2, Box.mk 0 0 3 3] ∧
    extract_face wC8 "img/p/i.jpg" (224, 224) = Except.ok [[4, 5], [7, 8]] := by
  refine ⟨rfl, ?_⟩
  have h := claim_C8 wC8 "img/p/i.jpg" [[1, 2, 3], [4, 5, 6], [7, 8, 9]]
      (Box.mk 0 1 2 2) [Box.mk 0 0 3 3] rfl rfl
  rw [h]
  rfl

/-- C2 (corrected): on every path of the shape dirs/p/i.jpg with p and i
free of separators, get_key_from_fp returns the key p/i.jpg and
image_uid_from_fp returns the key with a leading separator, /p/i.jpg;
on every path with fewer than two separators get_key_from_fp returns
None while image_uid_from_fp raises NameError (the unbound warning
name) instead of returning None.  The dirs, p and i parts must also be
newline-free, because the dot of Python's re does not match a newline:
a path such as d/a(newline)b/i.jpg resolves to None in the source even
though its segments are separator-free.  The claim's further assertion
that every non-.jpg-suffixed path resolves to None is false: the
patterns are matched against a prefix only and the dot of
get_key_from_fp is unescaped, so such paths can still yield a key. -/
theorem claim_C2 (d p i : String) (hp : '/' ∉ p.data) (hi : '/' ∉ i.data)
    (hnd : '\n' ∉ d.data) (hnp : '\n' ∉ p.data) (hni : '\n' ∉ i.data) :
    get_key_from_fp (d ++ "/" ++ p ++ "/" ++ i ++ ".jpg") = some (p ++ "/" ++ i ++ ".jpg") ∧
    image_uid_from_fp (d ++ "/" ++ p ++ "/" ++ i ++ ".jpg")
      = Except.ok (some ("/" ++ p ++ "/" ++ i ++ ".jpg")) ∧
    (∀ s : String, s.data.count '/' < 2 →
      get_key_from_fp s = none ∧ image_uid_from_fp s = Except.error PyError.nameError) := by
  have hsl : ("/" : String).data = ['/'] := rfl
  have hjp : (".jpg" : String).data = jpgL := rfl
  have hdata : (d ++ "/" ++ p ++ "/" ++ i ++ ".jpg").data
      = d.data ++ '/' :: (p.data ++ '/' :: (i.data ++ jpgL)) := by
    simp [String.data_append, hsl, hjp, jpgL]
  have hout : p.data ++ '/' :: (i.data ++ jpgL) = (p ++ "/" ++ i ++ ".jpg").data := by
    simp [String.data_append, hsl, hjp, jpgL]
  have huout : '/' :: (p.data ++ '/' :: (i.data ++ jpgL)) = ("/" ++ p ++ "/" ++ i ++ ".jpg").data := by
    simp [String.data_append, hsl, hjp, jpgL]
  refine ⟨?_, ?_, ?_⟩
  · simp only [get_key_from_fp, hdata, getKeyL_valid d.data p.data i.data hp hi hnd hnp hni]
    rw [Option.map_some', hout]
  · simp only [image_uid_from_fp, uidMatch, hdata,
      uidKeyL_valid d.data p.data i.data hp hi hnd hnp hni]
    rw [Option.map_some', huout]
  · intro s hs
    constructor
    · simp only [get_key_from_fp, getKeyL_short hs]
      rfl
    · simp only [image_uid_from_fp, uidMatch, uidKeyL_short hs]
      rfl

/-- Witness for C2 at a concrete valid path and a concrete short path. -/
theorem claim_C2_witness :
    get_key_from_fp "data/p/i.jpg" = some "p/i.jpg" ∧
    image_uid_from_fp "data/p/i.jpg" = Except.ok (some "/p/i.jpg") ∧
    get_key_from_fp "flat" = none ∧
    image_uid_from_fp "flat" = Except.error PyError.nameError := by
  have h := claim_C2 "data" "p" "i" (by decide) (by decide) (by decide) (by decide) (by decide)
  exact ⟨h.1, h.2.1, (h.2.2 "flat" (by decide)).1, (h.2.2 "flat" (by decide)).2⟩

/-- Counterexample for C2 as stated: paths that are not .jpg-suffixed
do not all resolve to None (the unescaped dot lets get_key_from_fp
accept a name whose trailing jpg has no dot at all, and prefix matching
lets image_uid_from_fp accept trailing garbage after .jpg); on a
genuinely unresolvable path image_uid_from_fp raises NameError rather
than returning None; and a well-segmented path whose directory segment
contains a newline resolves to no key at all, because the dot of
Python's re does not match a newline. -/
theorem claim_C2_counterexample :
    get_key_from_fp "a/b/cxjpg" = some "b/cxjpg" ∧
    strEndsWith "a/b/cxjpg" (".jpg") = false ∧
    image_uid_from_fp "a/b/c.jpgX" = Except.ok (some "/b/c.jpg") ∧
    strEndsWith "a/b/c.jpgX" (".jpg") = false ∧
    image_uid_from_fp "a-b-c" = Except.error PyError.nameError ∧
    get_key_from_fp "d/a\nb/i.jpg" = none ∧
    image_uid_from_fp "d/a\nb/i.jpg" = Except.error PyError.nameError :=
  ⟨rfl, rfl, rfl, rfl, rfl, rfl, rfl⟩

/-- C3 (code bug): on a path the pattern does not match, the intended
behaviour is to print a warning naming the input and return None, but
the warning line of the source formats the name fp, which is unbound in
that scope (the parameter is f), so image_uid_from_fp raises NameError
and never reaches its return None. -/
theorem claim_C3 : image_uid_from_fp "nomatch" = Except.error PyError.nameError := rfl

/-- C5 (corrected): the aggregator ignores (skips with no effect and no
error) exactly the hidden files and the files not ending in .txt; every
remaining listed file must match the digits-dash-label pattern, and the
aggregator fails, always with AttributeError, precisely when some such
file has no extractable label name.  The claim's assertion that files
failing the full naming pattern are ignored is false: a visible .txt
file that fails the pattern raises rather than being skipped. -/
theorem claim_C5 (fs : AnnoFS) (fl : String) :
    (∀ (f : String) (l : List String), annoFileFilter f = false →
      collectAnnos fs fl (f :: l) = collectAnnos fs fl l) ∧
    (∀ l : List String,
      (collectAnnos fs fl l = Except.error PyError.attributeError ↔
        ∃ f ∈ l, annoFileFilter f = true ∧ labelOf f = none)) ∧
    (∀ (l : List String) (e : PyError),
      collectAnnos fs fl l = Except.error e → e = PyError.attributeError) ∧
    (∀ dir : String,
      (make_annotations_df fs fl dir = Except.error PyError.attributeError ↔
        ∃ f ∈ fs.listdir dir, annoFileFilter f = true ∧ labelOf f = none)) := by
  refine ⟨fun f l h => collectAnnos_skip fs fl h l,
    fun l => collectAnnos_error_iff fs fl l,
    fun l e h => collectAnnos_error_val fs fl l e h, fun dir => ?_⟩
  constructor
  · intro h
    cases hc : collectAnnos fs fl (fs.listdir dir) with
    | error e =>
      have he := collectAnnos_error_val fs fl _ e hc
      subst he
      exact (collectAnnos_error_iff fs fl _).mp hc
    | ok annos =>
      have hm : make_annotations_df fs fl dir
          = (if annos.isEmpty then Except.error PyError.valueError
             else Except.ok (concatOuter annos)) := by
        simp [make_annotations_df, hc]
      rw [hm] at h
      split at h <;> simp_all
  · intro hex
    have hc := (collectAnnos_error_iff fs fl _).mpr hex
    simp [make_annotations_df, hc]

/-- Witness for C5: a non-.txt file is skipped with no effect, and the
failure characterisation holds on a concrete directory. -/
theorem claim_C5_witness :
    collectAnnos afsC5 "flags" ("readme.md" :: ["1-young.txt"])
      = collectAnnos afsC5 "flags" ["1-young.txt"] ∧
    (make_annotations_df afsC5 "flags" "dir" = Except.error PyError.attributeError ↔
      ∃ f ∈ afsC5.listdir "dir", annoFileFilter f = true ∧ labelOf f = none) :=
  ⟨(claim_C5 afsC5 "flags").1 "readme.md" ["1-young.txt"] (by decide),
   (claim_C5 afsC5 "flags").2.2.2 "dir"⟩

/-- Counterexample for C5 as stated: notes.txt does not match the
naming pattern, yet it is not ignored; the aggregator raises
AttributeError on it. -/
theorem claim_C5_counterexample :
    annoFileFilter "notes.txt" = true ∧
    labelOf "notes.txt" = none ∧
    make_annotations_df afsC5x "flags" "dir" = Except.error PyError.attributeError :=
  ⟨rfl, rfl, rfl⟩

/-- C6 (confirmed): when the aggregation loop succeeds on a nonempty
collection of matched annotation files, the returned table has one
column per file, named by the extracted labels in file order; its row
set is the union of the row keys of all the files; and a cell is the
missing-value marker exactly when the column's file contributed no
value for that row. -/
theorem claim_C6 (fs : AnnoFS) (fl dir : String)
    (annos : List (String × List (String × Int)))
    (hc : collectAnnos fs fl (fs.listdir dir) = Except.ok annos) (hne : annos ≠ []) :
    make_annotations_df fs fl dir = Except.ok (concatOuter annos) ∧
    (concatOuter annos).cols.length = annos.length ∧
    (concatOuter annos).cols.map Prod.fst = annos.map Prod.fst ∧
    (∀ k, k ∈ (concatOuter annos).index ↔ ∃ a ∈ annos, k ∈ a.2.map Prod.fst) ∧
    (∀ (j : Nat) (a : String × List (String × Int)), annos.get? j = some a →
      ∀ k, (concatOuter annos).cell j k = none ↔ k ∉ a.2.map Prod.fst) :=
  ⟨make_annotations_ok fs fl dir hc hne, rfl, rfl,
   fun k => concatOuter_index_mem annos k,
   fun j a hj k => concatOuter_cell_none annos j a hj k⟩

/-- Witness for C6 on two concrete overlapping annotation files. -/
theorem claim_C6_witness :
    make_annotations_df afsC6 "flags" "dir"
      = Except.ok (concatOuter [("young", [("k1", 1), ("k2", 2)]), ("open", [("k2", 5), ("k3", 6)])]) ∧
    ((concatOuter [("young", [("k1", 1), ("k2", 2)]), ("open", [("k2", 5), ("k3", 6)])]).cell 0 "k3"
        = none ↔
      "k3" ∉ ([("k1", (1 : Int)), ("k2", 2)] : List (String × Int)).map Prod.fst) := by
  have h := claim_C6 afsC6 "flags" "dir"
      [("young", [("k1", 1), ("k2", 2)]), ("open", [("k2", 5), ("k3", 6)])] rfl (by decide)
  exact ⟨h.1, h.2.2.2.2 0 ("young", [("k1", 1), ("k2", 2)]) rfl "k3"⟩

/-- C9 (confirmed): make_annotations_df is not a function of its
anno_dir argument alone; it lists filenames from the argument but reads
contents from the global flags directory, so the same argument under
two flags values yields two different tables. -/
theorem claim_C9 :
    make_annotations_df afsC9 "flagsA" "dir" = Except.ok (concatOuter [("young", [("k1", 1)])]) ∧
    make_annotations_df afsC9 "flagsB" "dir" = Except.ok (concatOuter [("young", [("k1", 2)])]) ∧
    concatOuter [("young", [("k1", (1 : Int))])] ≠ concatOuter [("young", [("k1", 2)])] := by
  refine ⟨rfl, rfl, ?_⟩
  decide

/-- C10 (corrected): for every directory in which no listed file both
passes the visible-.txt filter and matches the naming pattern, the
aggregator raises an error rather than returning an empty table; the
error is the ValueError of concatenating an empty collection when no
file passes the filter at all, and an AttributeError from label
extraction when a visible .txt file fails the pattern. -/
theorem claim_C10 (fs : AnnoFS) (fl dir : String)
    (h : ∀ f ∈ fs.listdir dir, ¬(annoFileFilter f = true ∧ (labelOf f).isSome = true)) :
    (∃ e, make_annotations_df fs fl dir = Except.error e) ∧
    ((∀ f ∈ fs.listdir dir, annoFileFilter f = false) →
      make_annotations_df fs fl dir = Except.error PyError.valueError) := by
  constructor
  · by_cases hex : ∃ f ∈ fs.listdir dir, annoFileFilter f = true
    · obtain ⟨f, hf, hff⟩ := hex
      have hlab : labelOf f = none := by
        cases hl : labelOf f with
        | none => rfl
        | some lab => exact absurd ⟨hff, by simp [hl]⟩ (h f hf)
      have hc := (collectAnnos_error_iff fs fl (fs.listdir dir)).mpr ⟨f, hf, hff, hlab⟩
      exact ⟨PyError.attributeError, by simp [make_annotations_df, hc]⟩
    · have hall : ∀ f ∈ fs.listdir dir, annoFileFilter f = false := by
        intro f hf
        by_contra hne
        exact hex ⟨f, hf, by simpa using hne⟩
      have hc := collectAnnos_ok_nil fs fl hall
      exact ⟨PyError.valueError, by simp [make_annotations_df, hc]⟩
  · intro hall
    have hc := collectAnnos_ok_nil fs fl hall
    simp [make_annotations_df, hc]

/-- Witness for C10 on a directory with only a hidden file and a
non-.txt file. -/
theorem claim_C10_witness :
    (∃ e, make_annotations_df afsC10 "flags" "dir" = Except.error e) ∧
    make_annotations_df afsC10 "flags" "dir" = Except.error PyError.valueError := by
  have h := claim_C10 afsC10 "flags" "dir" (by decide)
  exact ⟨h.1, h.2 (by decide)⟩

/-- Counterexample for C10 as stated: a directory whose only file is a
visible .txt file failing the pattern contains no file matching the
pattern, yet the raised error is the AttributeError of label
extraction, not the ValueError of concatenating an empty collection. -/
theorem claim_C10_counterexample :
    (∀ f ∈ afsC10x.listdir "dir", ¬(annoFileFilter f = true ∧ (labelOf f).isSome = true)) ∧
    make_annotations_df afsC10x "flags" "dir" = Except.error PyError.attributeError ∧
    make_annotations_df afsC10x "flags" "dir" ≠ Except.error PyError.valueError := by
  refine ⟨by decide, rfl, ?_⟩
  intro hcontra
  have h2 : (Except.error PyError.attributeError : Except PyError DF)
      = Except.error PyError.valueError :=
    (rfl : make_annotations_df afsC10x "flags" "dir"
      = Except.error PyError.attributeError).symm.trans hcontra
  injection h2 with h3
  exact absurd h3 (by decide)
